import Mathlib

/-!
StormForce load-test engine: request executor, finalization and orchestration

A shallow embedding of `internal/loadtest/loadtest.go` (with the `Results`
record of `internal/results/results.go` and the fields of `config.Config`
that the engine reads), followed by theorems about it.

Modelling conventions.

* Latencies (`float64` seconds in the source) are exact rationals. The
  failure marker appended by the source is the literal `-1`.
* Go `int` fields are `Int`. The counters only ever grow by one per request,
  so the 64-bit wrap-around is never reached and is not modelled.
* The network is an oracle: an invocation of `makeRequest` is given a function
  from the attempt index to what that attempt observes (`Attempt`).
* The storm phase is given a result only where the source itself runs the
  invocations of `makeRequest` one after another (a single worker, or a single
  job). With two or more workers and two or more jobs the source updates the
  shared record from concurrent goroutines without synchronisation; the record
  it returns then depends on the interleaving and `Run` reports that instead
  of a record.
* Allocation succeeds whenever the run-time size check of `make` passes.
* Logging is omitted; it does not touch `Results`.
-/

namespace Stormforce

/-- The fields of `config.Config` read by `Run` and `makeRequest`. -/
structure Config where
  N : Int
  Threads : Int
  RetryLimit : Int
  ResponsePattern : String
  deriving DecidableEq, Repr

/-- The record `results.Results`. -/
structure Results where
  TotalRequests : Int
  SuccessfulRequests : Int
  FailedRequests : Int
  ResponseTimes : List ℚ
  FailedStatusCodes : List Int
  MinTime : ℚ
  MaxTime : ℚ
  MedianTime : ℚ
  PercentileTime90 : ℚ
  AverageTime : ℚ
  TotalDuration : ℚ
  deriving DecidableEq, Repr

/-- The value of `math.MaxFloat64`, that is `(2^53 - 1) * 2^971`. -/
def maxFloat64 : ℚ := (2 ^ 53 - 1) * 2 ^ 971

/-- The literal `results.Results{...}` built at the top of `Run`: empty slices,
`MinTime = math.MaxFloat64`, `MaxTime = 0`, every other field at its zero value. -/
def initResults : Results :=
  { TotalRequests := 0
    SuccessfulRequests := 0
    FailedRequests := 0
    ResponseTimes := []
    FailedStatusCodes := []
    MinTime := maxFloat64
    MaxTime := 0
    MedianTime := 0
    PercentileTime90 := 0
    AverageTime := 0
    TotalDuration := 0 }

/-- What one pass through the body of the attempt loop observes.

* `requestError`: `http.NewRequest` returned an error;
* `transportError`: `client.Do` returned an error;
* `response status matched duration`: a response arrived with `resp.StatusCode =
  status`, measured `duration`, and `matched` is what `regexp.Match` on the body
  returns for the configured pattern (only consulted when a pattern is set). -/
inductive Attempt where
  | requestError : Attempt
  | transportError : Attempt
  | response (status : Int) (matched : Bool) (duration : ℚ) : Attempt
  deriving DecidableEq, Repr

/-- An attempt that ended without a response (both `continue` branches). -/
def Attempt.isError : Attempt → Bool
  | .requestError => true
  | .transportError => true
  | .response _ _ _ => false

/-- The two failure branches that `return` from inside the loop (status `>= 400`,
or pattern mismatch): the status code and the marker `-1` are appended. -/
def recordHTTPFailure (res : Results) (status : Int) : Results :=
  { res with
    FailedStatusCodes := res.FailedStatusCodes ++ [status]
    ResponseTimes := res.ResponseTimes ++ [-1] }

/-- The tail of the loop body, lines 129-138: the duration is appended, the
running minimum and maximum are updated, both counters are incremented. -/
def recordSuccess (res : Results) (duration : ℚ) : Results :=
  { res with
    ResponseTimes := res.ResponseTimes ++ [duration]
    MinTime := if duration < res.MinTime then duration else res.MinTime
    MaxTime := if duration > res.MaxTime then duration else res.MaxTime
    TotalRequests := res.TotalRequests + 1
    SuccessfulRequests := res.SuccessfulRequests + 1 }

/-- The code after the loop, lines 141-143: the marker is appended and
`FailedRequests` is incremented. -/
def recordExhausted (res : Results) : Results :=
  { res with
    ResponseTimes := res.ResponseTimes ++ [-1]
    FailedRequests := res.FailedRequests + 1 }

/-- The loop `for attempt := 0; attempt < cfg.RetryLimit; attempt++` of
`makeRequest`, entered at index `attempt` with `remaining` iterations still
allowed by the bound. The second component of the result is the number of
times the loop body has been entered when `makeRequest` returns. -/
def attemptLoop (cfg : Config) (env : Nat → Attempt) :
    (remaining : Nat) → (attempt : Nat) → Results → Results × Nat
  | 0, attempt, res => (recordExhausted res, attempt)
  | remaining + 1, attempt, res =>
    match env attempt with
    | .requestError => attemptLoop cfg env remaining (attempt + 1) res
    | .transportError => attemptLoop cfg env remaining (attempt + 1) res
    | .response status matched duration =>
      if status ≥ 400 then
        (recordHTTPFailure res status, attempt + 1)
      else if cfg.ResponsePattern ≠ "" ∧ matched = false then
        (recordHTTPFailure res status, attempt + 1)
      else
        (recordSuccess res duration, attempt + 1)

/-- The function `makeRequest`: the updated record and the number of attempts made. -/
def makeRequest (cfg : Config) (env : Nat → Attempt) (res : Results) : Results × Nat :=
  attemptLoop cfg env cfg.RetryLimit.toNat 0 res

/-- A sequential series of `makeRequest` invocations on one shared record, one
invocation per element of `envs`. -/
def makeRequests (cfg : Config) (envs : List (Nat → Attempt)) (res : Results) : Results :=
  envs.foldl (fun r env => (makeRequest cfg env r).1) res

/-- The function `calculateAverage`. -/
def calculateAverage (values : List ℚ) : ℚ :=
  if values.length = 0 then 0
  else values.foldl (fun sum v => if v ≥ 0 then sum + v else sum) 0 / (values.length : ℚ)

/-- The call `sort.Float64s`: the ascending rearrangement of the slice. -/
def sortFloat64s (values : List ℚ) : List ℚ :=
  values.insertionSort (· ≤ ·)

/-- The index `int(float64(n) * 0.9)`. For every slice length that fits in
memory the double-precision product truncates to `floor (9 * n / 10)`. -/
def percentile90Index (n : Nat) : Nat := n * 9 / 10

/-- Why `Run` yields no record that is a function of its inputs: a run-time
panic (`indexOutOfRange`, `makesliceCapOutOfRange`, `makechanSizeOutOfRange`), a
`Submit` that never returns, or workers that update the shared record
concurrently with no synchronisation. -/
inductive RunError where
  | indexOutOfRange : RunError
  | makechanSizeOutOfRange : RunError
  | submitBlocksForever : RunError
  | makesliceCapOutOfRange : RunError
  | unsynchronizedWorkers : RunError
  deriving DecidableEq, Repr

/-- The largest capacity `make([]float64, 0, n)` accepts on a 64-bit target:
the run-time check rejects `8 * n > 2^48`. -/
def maxSliceCap : Int := 2 ^ 45

/-- The statistics block of `Run`, lines 63-68. `elapsed` stands for
`time.Since(startTime).Seconds()`. An index expression outside the slice is a
run-time panic. -/
def finalize (elapsed : ℚ) (res : Results) : Except RunError Results :=
  let sorted := sortFloat64s res.ResponseTimes
  match sorted[sorted.length / 2]?, sorted[percentile90Index sorted.length]? with
  | some median, some p90 =>
    .ok { res with
          ResponseTimes := sorted
          MedianTime := median
          PercentileTime90 := p90
          AverageTime := calculateAverage sorted
          TotalDuration := elapsed }
  | _, _ => .error .indexOutOfRange

/-- The function `Run`. `env i` is the oracle of the `i`-th `makeRequest`
invocation, warmup first.

* `make([]float64, 0, cfg.N)` in the initial literal panics for a negative or
  oversized `N`, before anything else happens.
* The warmup loop calls `makeRequest` `Threads` times on the caller's goroutine.
* A negative `Threads` makes `make(chan func(), workerCount)` panic; with
  `Threads = 0` no worker exists and the first `Submit` never returns.
* With one worker, or with at most one job, the jobs run one after another in
  submission order, each after the warmup. With two or more workers and two
  or more jobs, `makeRequest` runs on several goroutines that share `res`
  without any lock, and no record is determined.
* The statistics block runs after `wg.Wait()`. -/
def Run (cfg : Config) (env : Nat → Nat → Attempt) (elapsed : ℚ) : Except RunError Results :=
  if cfg.N < 0 ∨ maxSliceCap < cfg.N then .error .makesliceCapOutOfRange
  else
    let warm := makeRequests cfg ((List.range cfg.Threads.toNat).map env) initResults
    if cfg.Threads < 0 then .error .makechanSizeOutOfRange
    else if cfg.Threads = 0 ∧ 0 < cfg.N then .error .submitBlocksForever
    else if 2 ≤ cfg.Threads ∧ 2 ≤ cfg.N then .error .unsynchronizedWorkers
    else
      let storm := makeRequests cfg
        ((List.range cfg.N.toNat).map (fun i => env (cfg.Threads.toNat + i))) warm
      finalize elapsed storm

/-- The filtered copy `validTimes` built by the reporting code
(`generatePercentileDistribution`): the entries with `time >= 0`, in order. -/
def validTimes (values : List ℚ) : List ℚ :=
  values.filter (fun t => t ≥ 0)

/-- The number of failure markers in a latency sequence. -/
def sentinelCount (values : List ℚ) : Nat :=
  values.count (-1)

/-- The index `int(float64(len(validTimes)-1) * p / 100)` of
`generatePercentileDistribution`, for a slice of length `len`. The conversion
to `int` truncates toward zero, and for every slice length that fits in memory
the double-precision quotient truncates to the same integer as the exact one. -/
def percentileIndex (len : Nat) (p : Int) : Int :=
  Int.tdiv (((len : Int) - 1) * p) 100

/-- The index expression `validTimes[index]` with an `int` index: a negative
index, or one at or past the length, is a run-time panic. -/
def indexFloat64s (values : List ℚ) (index : Int) : Except RunError ℚ :=
  if index < 0 then .error .indexOutOfRange
  else
    match values[index.toNat]? with
    | some v => .ok v
    | none => .error .indexOutOfRange

/-- The function `generatePercentileDistribution` of `internal/ui/chart.go`, up
to rendering: the values placed in `data`, one per percentile of
`[]float64{50, 75, 90, 95, 99}`, read from the sorted filtered copy. -/
def generatePercentileDistribution (results : Results) : Except RunError (List ℚ) :=
  let valid := sortFloat64s (validTimes results.ResponseTimes)
  [50, 75, 90, 95, 99].mapM (fun p => indexFloat64s valid (percentileIndex valid.length p))

/-- The value `successRate` computed by `DisplayResults` in
`internal/ui/console.go`, over exact rationals (the source divides in
`float64`, where `0 / 0` is not a number; here only a positive denominator is
ever considered). -/
def successRate (results : Results) : ℚ :=
  (results.SuccessfulRequests : ℚ) / (results.TotalRequests : ℚ) * 100


/-! ## The attempt loop -/

/-- Attempts that end without a response are skipped: the loop resumes after them. -/
theorem attemptLoop_skip_errors (cfg : Config) (env : Nat → Attempt) (k m : Nat) :
    ∀ (a : Nat) (res : Results), (∀ j, j < k → (env (a + j)).isError = true) →
      attemptLoop cfg env (k + m) a res = attemptLoop cfg env m (a + k) res := by
  induction k with
  | zero => intro a res _; simp
  | succ k ih =>
    intro a res h
    have h0 : (env a).isError = true := by simpa using h 0 (Nat.succ_pos k)
    have hstep : attemptLoop cfg env (k + m + 1) a res = attemptLoop cfg env (k + m) (a + 1) res := by
      cases he : env a with
      | requestError => simp [attemptLoop, he]
      | transportError => simp [attemptLoop, he]
      | response s b d => simp [he, Attempt.isError] at h0
    have hrest : ∀ j, j < k → (env (a + 1 + j)).isError = true := by
      intro j hj
      have := h (j + 1) (Nat.succ_lt_succ hj)
      simpa [Nat.add_assoc, Nat.add_comm 1 j] using this
    rw [show k + 1 + m = k + m + 1 by omega, hstep, ih (a + 1) res hrest]
    congr 1
    omega

/-- When no attempt gets a response the loop runs to its bound and takes the
exit after the loop. -/
theorem attemptLoop_all_errors (cfg : Config) (env : Nat → Attempt) (n a : Nat) (res : Results)
    (h : ∀ j, j < n → (env (a + j)).isError = true) :
    attemptLoop cfg env n a res = (recordExhausted res, a + n) := by
  have := attemptLoop_skip_errors cfg env n 0 a res h
  simpa [attemptLoop] using this

/-- Every invocation appends exactly one entry to `ResponseTimes`. -/
theorem attemptLoop_appends_one (cfg : Config) (env : Nat → Attempt) (n : Nat) :
    ∀ (a : Nat) (res : Results),
      ∃ x, (attemptLoop cfg env n a res).1.ResponseTimes = res.ResponseTimes ++ [x] := by
  induction n with
  | zero => intro a res; exact ⟨-1, rfl⟩
  | succ n ih =>
    intro a res
    cases he : env a with
    | requestError => simpa [attemptLoop, he] using ih (a + 1) res
    | transportError => simpa [attemptLoop, he] using ih (a + 1) res
    | response s b d =>
      simp only [attemptLoop, he]
      split_ifs
      · exact ⟨-1, rfl⟩
      · exact ⟨-1, rfl⟩
      · exact ⟨d, rfl⟩

/-! ## The request executor -/

/-- C1 (the counter invariant fails on the code). One invocation whose single
allowed attempt ends in a transport error, followed by finalization, leaves
`SuccessfulRequests = 0`, `FailedRequests = 1` and `TotalRequests = 0`: the exit
after the loop increments `FailedRequests` but not `TotalRequests`, so
`SuccessfulRequests + FailedRequests` differs from `TotalRequests`. -/
theorem counters_after_exhausted_retries :
    ∃ fin : Results,
      finalize 0 (makeRequests ⟨1, 1, 1, ""⟩ [fun _ => Attempt.transportError] initResults)
        = .ok fin ∧
      fin.SuccessfulRequests = 0 ∧ fin.FailedRequests = 1 ∧ fin.TotalRequests = 0 ∧
      fin.SuccessfulRequests + fin.FailedRequests ≠ fin.TotalRequests := by
  refine ⟨_, rfl, ?_, ?_, ?_, ?_⟩ <;> decide

/-- C2 (the marker count is not `FailedRequests` on the code). One invocation that
receives status 500 on its first attempt appends one marker `-1` to
`ResponseTimes` and leaves `FailedRequests` at 0: the branch for status `>= 400`
returns without incrementing the counter. -/
theorem sentinel_count_after_http_failure :
    sentinelCount
      (makeRequests ⟨1, 1, 1, ""⟩ [fun _ => Attempt.response 500 true (1 / 4)] initResults).ResponseTimes
        = 1 ∧
    (makeRequests ⟨1, 1, 1, ""⟩ [fun _ => Attempt.response 500 true (1 / 4)] initResults).FailedRequests
        = 0 := by
  decide

/-- C3 (no retry on HTTP failure). If attempt `k`, inside the retry bound, is the
first to receive a response and its status is `>= 400`, then `makeRequest` makes
exactly the attempts `0..k` (none after `k`) and returns the record with that
status appended to `FailedStatusCodes` and one marker `-1` appended to
`ResponseTimes`, everything else unchanged. In particular, when every attempt
is answered with status 500 and `RetryLimit >= 1`, exactly one attempt is made. -/
theorem makeRequest_no_retry_on_http_failure :
    (∀ (cfg : Config) (env : Nat → Attempt) (res : Results) (k : Nat)
        (status : Int) (matched : Bool) (duration : ℚ),
        (k : Int) < cfg.RetryLimit →
        (∀ j, j < k → (env j).isError = true) →
        env k = Attempt.response status matched duration →
        400 ≤ status →
        makeRequest cfg env res =
          ({ res with
             FailedStatusCodes := res.FailedStatusCodes ++ [status]
             ResponseTimes := res.ResponseTimes ++ [-1] }, k + 1)) ∧
    (∀ (cfg : Config) (env : Nat → Attempt) (res : Results),
        1 ≤ cfg.RetryLimit →
        (∀ j, ∃ matched duration, env j = Attempt.response 500 matched duration) →
        (makeRequest cfg env res).2 = 1) := by
  have main : ∀ (cfg : Config) (env : Nat → Attempt) (res : Results) (k : Nat)
      (status : Int) (matched : Bool) (duration : ℚ),
      (k : Int) < cfg.RetryLimit →
      (∀ j, j < k → (env j).isError = true) →
      env k = Attempt.response status matched duration →
      400 ≤ status →
      makeRequest cfg env res = (recordHTTPFailure res status, k + 1) := by
    intro cfg env res k status matched duration hk hprev hresp hstatus
    obtain ⟨m, hm⟩ : ∃ m, cfg.RetryLimit.toNat = k + (m + 1) :=
      ⟨cfg.RetryLimit.toNat - (k + 1), by omega⟩
    unfold makeRequest
    rw [hm, attemptLoop_skip_errors cfg env k (m + 1) 0 res (by simpa using hprev)]
    simp [attemptLoop, hresp, hstatus]
  refine ⟨fun cfg env res k status matched duration hk hprev hresp hstatus =>
    main cfg env res k status matched duration hk hprev hresp hstatus, ?_⟩
  intro cfg env res hlimit hall
  obtain ⟨matched, duration, h0⟩ := hall 0
  have := main cfg env res 0 500 matched duration (by simpa using hlimit)
    (fun j hj => absurd hj (Nat.not_lt_zero j)) h0 (by norm_num)
  rw [this]

/-- C3, instance: with `RetryLimit = 3`, a transport error on attempt 0 and
status 503 on attempt 1, two attempts are made; against a target that always
answers 500, one attempt is made. -/
theorem makeRequest_no_retry_on_http_failure_witness :
    makeRequest ⟨1, 1, 3, ""⟩
        (fun j => if j = 0 then Attempt.transportError else Attempt.response 503 true (1 / 2))
        initResults =
      ({ initResults with FailedStatusCodes := [503], ResponseTimes := [-1] }, 2) ∧
    (makeRequest ⟨1, 1, 3, ""⟩ (fun _ => Attempt.response 500 true (1 / 2)) initResults).2 = 1 :=
  ⟨makeRequest_no_retry_on_http_failure.1 ⟨1, 1, 3, ""⟩
      (fun j => if j = 0 then Attempt.transportError else Attempt.response 503 true (1 / 2))
      initResults 1 503 true (1 / 2) (by decide)
      (fun j hj => by
        have hj0 : j = 0 := by omega
        subst hj0
        rfl)
      rfl (by decide),
   makeRequest_no_retry_on_http_failure.2 ⟨1, 1, 3, ""⟩
      (fun _ => Attempt.response 500 true (1 / 2)) initResults (by decide)
      (fun _ => ⟨true, 1 / 2, rfl⟩)⟩

/-- C4 (retry bound). With `RetryLimit >= 0`, when every attempt inside the bound
ends without a response (transport error or request-construction error),
`makeRequest` makes exactly `RetryLimit` attempts and returns the record with
one marker `-1` appended to `ResponseTimes` and `FailedRequests` incremented by
one; `FailedStatusCodes`, `SuccessfulRequests`, `MinTime`, `MaxTime` and every
other field are unchanged. -/
theorem makeRequest_retry_bound (cfg : Config) (env : Nat → Attempt) (res : Results)
    (hlimit : 0 ≤ cfg.RetryLimit)
    (herr : ∀ j : Nat, (j : Int) < cfg.RetryLimit → (env j).isError = true) :
    ((makeRequest cfg env res).2 : Int) = cfg.RetryLimit ∧
    (makeRequest cfg env res).1 =
      { res with
        ResponseTimes := res.ResponseTimes ++ [-1]
        FailedRequests := res.FailedRequests + 1 } ∧
    (makeRequest cfg env res).1.FailedStatusCodes = res.FailedStatusCodes ∧
    (makeRequest cfg env res).1.SuccessfulRequests = res.SuccessfulRequests ∧
    (makeRequest cfg env res).1.MinTime = res.MinTime ∧
    (makeRequest cfg env res).1.MaxTime = res.MaxTime := by
  have h : makeRequest cfg env res = (recordExhausted res, cfg.RetryLimit.toNat) := by
    unfold makeRequest
    rw [attemptLoop_all_errors cfg env cfg.RetryLimit.toNat 0 res
      (fun j hj => by simpa using herr j (by omega))]
    simp
  rw [h]
  refine ⟨by simpa using hlimit, rfl, rfl, rfl, rfl, rfl⟩

/-- C4, instance: `RetryLimit = 3` and a target that never answers give three attempts. -/
theorem makeRequest_retry_bound_witness :
    ((makeRequest ⟨1, 1, 3, ""⟩ (fun _ => Attempt.transportError) initResults).2 : Int) = 3 ∧
    (makeRequest ⟨1, 1, 3, ""⟩ (fun _ => Attempt.transportError) initResults).1 =
      { initResults with ResponseTimes := [-1], FailedRequests := 1 } :=
  have h := makeRequest_retry_bound ⟨1, 1, 3, ""⟩ (fun _ => Attempt.transportError) initResults
    (by decide) (fun _ _ => rfl)
  ⟨h.1, h.2.1⟩

/-! ## Finalization -/

/-- The sorted slice holds the same entries. -/
theorem mem_sortFloat64s (values : List ℚ) (v : ℚ) :
    v ∈ sortFloat64s values ↔ v ∈ values :=
  (List.perm_insertionSort (· ≤ ·) values).mem_iff

/-- Sorting keeps the length. -/
theorem length_sortFloat64s (values : List ℚ) :
    (sortFloat64s values).length = values.length :=
  List.length_insertionSort (· ≤ ·) values

/-- Sorting a sorted slice changes nothing. -/
theorem sortFloat64s_idem (values : List ℚ) :
    sortFloat64s (sortFloat64s values) = sortFloat64s values :=
  List.Sorted.insertionSort_eq (List.sorted_insertionSort (· ≤ ·) values)

/-- On a non-empty latency sequence both index expressions are in range and the
statistics block produces a record. -/
theorem finalize_ok (elapsed : ℚ) (res : Results) (h : res.ResponseTimes ≠ []) :
    ∃ median p90,
      (sortFloat64s res.ResponseTimes)[(sortFloat64s res.ResponseTimes).length / 2]? = some median ∧
      (sortFloat64s res.ResponseTimes)[percentile90Index (sortFloat64s res.ResponseTimes).length]?
        = some p90 ∧
      finalize elapsed res = .ok
        { res with
          ResponseTimes := sortFloat64s res.ResponseTimes
          MedianTime := median
          PercentileTime90 := p90
          AverageTime := calculateAverage (sortFloat64s res.ResponseTimes)
          TotalDuration := elapsed } := by
  have hpos : 0 < (sortFloat64s res.ResponseTimes).length := by
    rw [length_sortFloat64s]
    exact List.length_pos.mpr h
  have h1 : (sortFloat64s res.ResponseTimes).length / 2 < (sortFloat64s res.ResponseTimes).length :=
    Nat.div_lt_self hpos (by decide)
  have h2 : percentile90Index (sortFloat64s res.ResponseTimes).length
      < (sortFloat64s res.ResponseTimes).length := by
    unfold percentile90Index
    omega
  refine ⟨(sortFloat64s res.ResponseTimes)[(sortFloat64s res.ResponseTimes).length / 2],
    (sortFloat64s res.ResponseTimes)[percentile90Index (sortFloat64s res.ResponseTimes).length],
    List.getElem?_eq_getElem h1, List.getElem?_eq_getElem h2, ?_⟩
  simp only [finalize, List.getElem?_eq_getElem h1, List.getElem?_eq_getElem h2]

/-- The accumulation loop of `calculateAverage` adds up the entries `>= 0`. -/
theorem calculateAverage_loop (values : List ℚ) :
    ∀ acc : ℚ, values.foldl (fun sum v => if v ≥ 0 then sum + v else sum) acc
      = acc + (validTimes values).sum := by
  induction values with
  | nil => intro acc; simp [validTimes]
  | cons v vs ih =>
    intro acc
    rw [List.foldl_cons, ih]
    by_cases hv : v ≥ 0
    · simp [validTimes, hv, add_assoc] at *
    · simp [validTimes, hv] at *

/-- C5 (the order statistics are not taken over the valid entries on the code).
A run with one warmup request that succeeds in 2 seconds and two storm
requests answered with status 500 finalizes with `MedianTime = -1`, the failure
marker, whereas the middle element of the sorted valid entries is 2: the
statistics block indexes the whole sorted slice, markers included. -/
theorem median_taken_over_sentinels :
    ∃ fin : Results,
      Run ⟨2, 1, 1, ""⟩
        (fun i _ => if i = 0 then Attempt.response 200 true 2 else Attempt.response 500 true 1) 0
        = .ok fin ∧
      fin.ResponseTimes = [-1, -1, 2] ∧
      fin.MedianTime = -1 ∧
      (sortFloat64s (validTimes fin.ResponseTimes))[(validTimes fin.ResponseTimes).length / 2]?
        = some 2 := by
  refine ⟨_, rfl, ?_, ?_, ?_⟩ <;> decide

/-- C6 (mean definition). `calculateAverage` returns 0 on the empty sequence,
and on a non-empty sequence the sum of the entries `>= 0` divided by the number
of all entries, markers included; that denominator is not zero. -/
theorem calculateAverage_spec :
    calculateAverage [] = 0 ∧
    ∀ (v : ℚ) (vs : List ℚ),
      calculateAverage (v :: vs) = (validTimes (v :: vs)).sum / ((v :: vs).length : ℚ) ∧
      ((v :: vs).length : ℚ) ≠ 0 := by
  refine ⟨rfl, fun v vs => ⟨?_, ?_⟩⟩
  · unfold calculateAverage
    rw [if_neg (by simp), calculateAverage_loop, zero_add]
  · exact Nat.cast_ne_zero.mpr (by simp)

/-- C7 (degenerate finalization fails on the code). With `N = 0` and
`Threads = 0` the latency sequence is empty when the statistics block runs and
the index expression is out of range; and a run whose two requests are both
answered with status 503 finalizes with `MedianTime = -1` and
`PercentileTime90 = -1`, the failure marker, not a zero value. -/
theorem finalize_degenerate :
    Run ⟨0, 0, 3, ""⟩ (fun _ _ => Attempt.transportError) 0 = .error RunError.indexOutOfRange ∧
    ∃ fin : Results,
      Run ⟨1, 1, 3, ""⟩ (fun _ _ => Attempt.response 503 true 1) 0 = .ok fin ∧
      validTimes fin.ResponseTimes = [] ∧
      fin.MedianTime = -1 ∧ fin.PercentileTime90 = -1 := by
  refine ⟨rfl, _, rfl, ?_, ?_, ?_⟩ <;> decide

/-- C9 (idempotence of finalization). On a non-empty latency sequence the
statistics block produces a record, and applying it again to that record
produces a record with the same `ResponseTimes` (same order), `MedianTime`,
`PercentileTime90` and `AverageTime`. -/
theorem finalize_idempotent (elapsed₁ elapsed₂ : ℚ) (res : Results)
    (h : res.ResponseTimes ≠ []) :
    ∃ fin₁ fin₂ : Results,
      finalize elapsed₁ res = .ok fin₁ ∧
      finalize elapsed₂ fin₁ = .ok fin₂ ∧
      fin₂.ResponseTimes = fin₁.ResponseTimes ∧
      fin₂.MedianTime = fin₁.MedianTime ∧
      fin₂.PercentileTime90 = fin₁.PercentileTime90 ∧
      fin₂.AverageTime = fin₁.AverageTime := by
  obtain ⟨median, p90, hm, hp, hfin⟩ := finalize_ok elapsed₁ res h
  refine ⟨_, { res with
      ResponseTimes := sortFloat64s res.ResponseTimes
      MedianTime := median
      PercentileTime90 := p90
      AverageTime := calculateAverage (sortFloat64s res.ResponseTimes)
      TotalDuration := elapsed₂ }, hfin, ?_, rfl, rfl, rfl, rfl⟩
  simp only [finalize, sortFloat64s_idem, hm, hp]

/-- C9, instance: the sequence `[3, -1, 1]`. -/
theorem finalize_idempotent_witness :
    ∃ fin₁ fin₂ : Results,
      finalize 5 { initResults with ResponseTimes := [3, -1, 1] } = .ok fin₁ ∧
      finalize 7 fin₁ = .ok fin₂ ∧
      fin₂.ResponseTimes = fin₁.ResponseTimes ∧
      fin₂.MedianTime = fin₁.MedianTime ∧
      fin₂.PercentileTime90 = fin₁.PercentileTime90 ∧
      fin₂.AverageTime = fin₁.AverageTime :=
  finalize_idempotent 5 7 { initResults with ResponseTimes := [3, -1, 1] } (by decide)

/-! ## Running minimum and maximum -/

/-- The three ways an invocation can end: the exit after the loop, one of the
two early failure returns, or the success return on some attempt that received
a response. -/
theorem attemptLoop_cases (cfg : Config) (env : Nat → Attempt) (n : Nat) :
    ∀ (a : Nat) (res : Results),
      (attemptLoop cfg env n a res).1 = recordExhausted res ∨
      (∃ status, (attemptLoop cfg env n a res).1 = recordHTTPFailure res status) ∨
      (∃ j status matched duration, env j = Attempt.response status matched duration ∧
        (attemptLoop cfg env n a res).1 = recordSuccess res duration) := by
  induction n with
  | zero => intro a res; exact Or.inl rfl
  | succ n ih =>
    intro a res
    cases he : env a with
    | requestError => simpa [attemptLoop, he] using ih (a + 1) res
    | transportError => simpa [attemptLoop, he] using ih (a + 1) res
    | response s b d =>
      simp only [attemptLoop, he]
      split_ifs
      · exact Or.inr (Or.inl ⟨s, rfl⟩)
      · exact Or.inr (Or.inl ⟨s, rfl⟩)
      · exact Or.inr (Or.inr ⟨a, s, b, d, he, rfl⟩)

/-- The bracket `MinTime <= v <= MaxTime` over the entries other than the marker. -/
theorem makeRequest_keeps_bracket (cfg : Config) (env : Nat → Attempt) (res : Results)
    (h : ∀ v ∈ res.ResponseTimes, v ≠ -1 → res.MinTime ≤ v ∧ v ≤ res.MaxTime) :
    ∀ v ∈ (makeRequest cfg env res).1.ResponseTimes, v ≠ -1 →
      (makeRequest cfg env res).1.MinTime ≤ v ∧ v ≤ (makeRequest cfg env res).1.MaxTime := by
  unfold makeRequest
  rcases attemptLoop_cases cfg env cfg.RetryLimit.toNat 0 res with hc | ⟨s, hc⟩ | ⟨j, s, b, d, _, hc⟩
  · rw [hc]
    intro v hv hne
    simp only [recordExhausted, List.mem_append, List.mem_singleton] at hv ⊢
    rcases hv with hv | hv
    · exact h v hv hne
    · exact absurd hv hne
  · rw [hc]
    intro v hv hne
    simp only [recordHTTPFailure, List.mem_append, List.mem_singleton] at hv ⊢
    rcases hv with hv | hv
    · exact h v hv hne
    · exact absurd hv hne
  · rw [hc]
    intro v hv hne
    simp only [recordSuccess, List.mem_append, List.mem_singleton] at hv ⊢
    rcases hv with hv | hv
    · obtain ⟨h1, h2⟩ := h v hv hne
      constructor
      · split_ifs with hd
        · exact le_trans (le_of_lt hd) h1
        · exact h1
      · split_ifs with hd
        · exact le_trans h2 (le_of_lt hd)
        · exact h2
    · subst hv
      constructor
      · split_ifs with hd
        · exact le_refl _
        · exact not_lt.mp hd
      · split_ifs with hd
        · exact le_refl _
        · exact not_lt.mp hd

/-- The bracket survives any series of invocations. -/
theorem makeRequests_keeps_bracket (cfg : Config) (envs : List (Nat → Attempt)) :
    ∀ res : Results,
      (∀ v ∈ res.ResponseTimes, v ≠ -1 → res.MinTime ≤ v ∧ v ≤ res.MaxTime) →
      ∀ v ∈ (makeRequests cfg envs res).ResponseTimes, v ≠ -1 →
        (makeRequests cfg envs res).MinTime ≤ v ∧ v ≤ (makeRequests cfg envs res).MaxTime := by
  induction envs with
  | nil => intro res h; simpa [makeRequests] using h
  | cons env envs ih =>
    intro res h
    have := ih (makeRequest cfg env res).1 (makeRequest_keeps_bracket cfg env res h)
    simpa [makeRequests] using this

/-- A series of invocations appends one entry per invocation. -/
theorem makeRequests_length (cfg : Config) (envs : List (Nat → Attempt)) :
    ∀ res : Results,
      (makeRequests cfg envs res).ResponseTimes.length = res.ResponseTimes.length + envs.length := by
  induction envs with
  | nil => intro res; simp [makeRequests]
  | cons env envs ih =>
    intro res
    obtain ⟨x, hx⟩ := attemptLoop_appends_one cfg env cfg.RetryLimit.toNat 0 res
    have := ih (makeRequest cfg env res).1
    simp only [makeRequests, List.foldl_cons] at this ⊢
    rw [this]
    unfold makeRequest
    rw [hx]
    simp
    omega

/-- C8 (min/max bracket). Starting from the initial record, after any sequential
series of `makeRequest` invocations in which at least one request succeeded,
finalization produces a record in which `MinTime <= v <= MaxTime` for every
entry `v` of `ResponseTimes` other than the marker `-1`. Moreover an invocation
with non-negative durations that appends the marker leaves `MinTime` and
`MaxTime` unchanged. -/
theorem minmax_bracket (cfg : Config) (envs : List (Nat → Attempt)) (elapsed : ℚ)
    (hsucc : 0 < (makeRequests cfg envs initResults).SuccessfulRequests) :
    (∃ fin : Results,
      finalize elapsed (makeRequests cfg envs initResults) = .ok fin ∧
      ∀ v ∈ fin.ResponseTimes, v ≠ -1 → fin.MinTime ≤ v ∧ v ≤ fin.MaxTime) ∧
    (∀ (env : Nat → Attempt) (res : Results),
      (∀ j status matched duration,
        env j = Attempt.response status matched duration → 0 ≤ duration) →
      (makeRequest cfg env res).1.ResponseTimes = res.ResponseTimes ++ [-1] →
      (makeRequest cfg env res).1.MinTime = res.MinTime ∧
      (makeRequest cfg env res).1.MaxTime = res.MaxTime) := by
  constructor
  · have hne : envs ≠ [] := by
      rintro rfl
      simp [makeRequests, initResults] at hsucc
    have hlen := makeRequests_length cfg envs initResults
    have hnonempty : (makeRequests cfg envs initResults).ResponseTimes ≠ [] := by
      intro h0
      rw [h0] at hlen
      have : 0 < envs.length := List.length_pos.mpr hne
      simp at hlen
      omega
    obtain ⟨median, p90, _, _, hfin⟩ := finalize_ok elapsed _ hnonempty
    refine ⟨_, hfin, ?_⟩
    intro v hv hne1
    have hv2 : v ∈ (makeRequests cfg envs initResults).ResponseTimes :=
      (mem_sortFloat64s _ v).mp hv
    exact makeRequests_keeps_bracket cfg envs initResults
      (by intro w hw; simp [initResults] at hw) v hv2 hne1
  · intro env res hdur happ
    unfold makeRequest at happ ⊢
    rcases attemptLoop_cases cfg env cfg.RetryLimit.toNat 0 res with
      hc | ⟨s, hc⟩ | ⟨j, s, b, d, hj, hc⟩
    · rw [hc]; exact ⟨rfl, rfl⟩
    · rw [hc]; exact ⟨rfl, rfl⟩
    · rw [hc] at happ
      have hd : d = -1 := by simpa [recordSuccess] using happ
      have := hdur j s b d hj
      rw [hd] at this
      norm_num at this

/-- C8, instance: a success in 2 seconds, a status 500, a success in 1 second;
and an invocation answered with status 500 on a record with `MinTime = 1`,
`MaxTime = 2`. -/
theorem minmax_bracket_witness :
    (∃ fin : Results,
      finalize 0 (makeRequests ⟨3, 1, 1, ""⟩
        [fun _ => Attempt.response 200 true 2, fun _ => Attempt.response 500 true 3,
         fun _ => Attempt.response 200 true 1] initResults) = .ok fin ∧
      ∀ v ∈ fin.ResponseTimes, v ≠ -1 → fin.MinTime ≤ v ∧ v ≤ fin.MaxTime) ∧
    ((makeRequest ⟨3, 1, 1, ""⟩ (fun _ => Attempt.response 500 true 3)
        { initResults with ResponseTimes := [2, 1], MinTime := 1, MaxTime := 2 }).1.MinTime = 1 ∧
     (makeRequest ⟨3, 1, 1, ""⟩ (fun _ => Attempt.response 500 true 3)
        { initResults with ResponseTimes := [2, 1], MinTime := 1, MaxTime := 2 }).1.MaxTime = 2) :=
  have h := minmax_bracket ⟨3, 1, 1, ""⟩
    [fun _ => Attempt.response 200 true 2, fun _ => Attempt.response 500 true 3,
     fun _ => Attempt.response 200 true 1] 0 (by decide)
  ⟨h.1, h.2 (fun _ => Attempt.response 500 true 3)
    { initResults with ResponseTimes := [2, 1], MinTime := 1, MaxTime := 2 }
    (fun _ _ _ _ he => by
      cases he
      decide)
    rfl⟩

/-! ## The orchestrator on an always-succeeding target -/

/-- With at least one attempt allowed and no pattern configured, a first attempt
answered with a status below 400 takes the success return. -/
theorem makeRequest_success (cfg : Config) (env : Nat → Attempt) (res : Results)
    (status : Int) (matched : Bool) (duration : ℚ)
    (hlimit : 1 ≤ cfg.RetryLimit) (hpat : cfg.ResponsePattern = "")
    (h0 : env 0 = Attempt.response status matched duration) (hstatus : status < 400) :
    makeRequest cfg env res = (recordSuccess res duration, 1) := by
  obtain ⟨m, hm⟩ : ∃ m, cfg.RetryLimit.toNat = m + 1 := ⟨cfg.RetryLimit.toNat - 1, by omega⟩
  unfold makeRequest
  rw [hm]
  simp [attemptLoop, h0, hpat, not_le.mpr hstatus]

/-- A series of invocations, each answered with status 200 on its first attempt. -/
theorem makeRequests_all_success (cfg : Config)
    (hlimit : 1 ≤ cfg.RetryLimit) (hpat : cfg.ResponsePattern = "")
    (envs : List (Nat → Attempt)) :
    (∀ env ∈ envs, ∃ matched duration, env 0 = Attempt.response 200 matched duration ∧ 0 ≤ duration) →
    ∀ res : Results,
      (makeRequests cfg envs res).SuccessfulRequests = res.SuccessfulRequests + envs.length ∧
      (makeRequests cfg envs res).FailedRequests = res.FailedRequests ∧
      (makeRequests cfg envs res).FailedStatusCodes = res.FailedStatusCodes ∧
      ((∀ v ∈ res.ResponseTimes, 0 ≤ v) →
        ∀ v ∈ (makeRequests cfg envs res).ResponseTimes, 0 ≤ v) := by
  induction envs with
  | nil => intro _ res; simp [makeRequests]
  | cons env envs ih =>
    intro h res
    obtain ⟨matched, duration, h0, hd⟩ := h env (List.mem_cons_self env envs)
    have hstep := makeRequest_success cfg env res 200 matched duration hlimit hpat h0 (by norm_num)
    obtain ⟨i1, i2, i3, i4⟩ :=
      ih (fun e he => h e (List.mem_cons_of_mem env he)) (recordSuccess res duration)
    simp only [makeRequests, List.foldl_cons, hstep] at i1 i2 i3 i4 ⊢
    refine ⟨?_, ?_, ?_, ?_⟩
    · rw [i1]
      simp [recordSuccess]
      omega
    · rw [i2]
      rfl
    · rw [i3]
      rfl
    · intro hres
      apply i4
      intro v hv
      simp only [recordSuccess, List.mem_append, List.mem_singleton] at hv
      rcases hv with hv | hv
      · exact hres v hv
      · rw [hv]
        exact hd

/-- The orchestrator on a target that always answers 200, where the source
runs the requests one after another (one worker, or one job): the warmup
requests are counted together with the storm requests. -/
theorem Run_all_success (cfg : Config) (env : Nat → Nat → Attempt) (elapsed : ℚ)
    (hN : 1 ≤ cfg.N) (hcap : cfg.N ≤ maxSliceCap) (hT : 1 ≤ cfg.Threads)
    (hseq : cfg.Threads = 1 ∨ cfg.N = 1) (hR : 1 ≤ cfg.RetryLimit)
    (hP : cfg.ResponsePattern = "")
    (h200 : ∀ i j, ∃ matched duration,
      env i j = Attempt.response 200 matched duration ∧ 0 ≤ duration) :
    ∃ fin : Results,
      Run cfg env elapsed = .ok fin ∧
      fin.SuccessfulRequests = cfg.N + cfg.Threads ∧
      fin.FailedRequests = 0 ∧
      fin.FailedStatusCodes = [] ∧
      ∀ v ∈ fin.ResponseTimes, 0 ≤ v := by
  have hwarm := makeRequests_all_success cfg hR hP ((List.range cfg.Threads.toNat).map env)
    (by
      intro e he
      obtain ⟨i, _, rfl⟩ := List.mem_map.mp he
      exact h200 i 0) initResults
  have hstorm := makeRequests_all_success cfg hR hP
    ((List.range cfg.N.toNat).map (fun i => env (cfg.Threads.toNat + i)))
    (by
      intro e he
      obtain ⟨i, _, rfl⟩ := List.mem_map.mp he
      exact h200 (cfg.Threads.toNat + i) 0)
    (makeRequests cfg ((List.range cfg.Threads.toNat).map env) initResults)
  obtain ⟨w1, w2, w3, w4⟩ := hwarm
  obtain ⟨s1, s2, s3, s4⟩ := hstorm
  have hlen := makeRequests_length cfg
    ((List.range cfg.N.toNat).map (fun i => env (cfg.Threads.toNat + i)))
    (makeRequests cfg ((List.range cfg.Threads.toNat).map env) initResults)
  have hnonempty : (makeRequests cfg
      ((List.range cfg.N.toNat).map (fun i => env (cfg.Threads.toNat + i)))
      (makeRequests cfg ((List.range cfg.Threads.toNat).map env) initResults)).ResponseTimes ≠ [] := by
    intro h0
    rw [h0] at hlen
    simp at hlen
    omega
  obtain ⟨median, p90, _, _, hfin⟩ := finalize_ok elapsed _ hnonempty
  have hrun := hfin
  rw [show finalize elapsed (makeRequests cfg
      ((List.range cfg.N.toNat).map (fun i => env (cfg.Threads.toNat + i)))
      (makeRequests cfg ((List.range cfg.Threads.toNat).map env) initResults))
      = Run cfg env elapsed by
        unfold Run
        rw [if_neg (by omega), if_neg (by omega), if_neg (by omega), if_neg (by omega)]] at hrun
  refine ⟨_, hrun, ?_, ?_, ?_, ?_⟩
  · show (makeRequests cfg _ _).SuccessfulRequests = _
    rw [s1, w1]
    simp [initResults]
    omega
  · show (makeRequests cfg _ _).FailedRequests = _
    rw [s2, w2]
    rfl
  · show (makeRequests cfg _ _).FailedStatusCodes = _
    rw [s3, w3]
    rfl
  · intro v hv
    have hv2 := (mem_sortFloat64s _ v).mp hv
    exact s4 (w4 (by intro w hw; simp [initResults] at hw)) v hv2

/-- C10 (all-success run totals, as the code has them). With `N >= 1` within
the capacity that `make` accepts, `Threads >= 1`, one worker or one job (so
that the source itself runs the requests one after another), `RetryLimit >= 1`,
no validation pattern and every attempt answered with status 200 in a
non-negative time, `Run` returns a record with `SuccessfulRequests = N + Threads`
(the `Threads` warmup requests are counted too), `FailedRequests = 0`, an empty
`FailedStatusCodes` and every latency `>= 0`. -/
theorem Run_all_success_totals (cfg : Config) (env : Nat → Nat → Attempt) (elapsed : ℚ)
    (hN : 1 ≤ cfg.N) (hcap : cfg.N ≤ maxSliceCap) (hT : 1 ≤ cfg.Threads)
    (hseq : cfg.Threads = 1 ∨ cfg.N = 1) (hR : 1 ≤ cfg.RetryLimit)
    (hP : cfg.ResponsePattern = "")
    (h200 : ∀ i j, ∃ matched duration,
      env i j = Attempt.response 200 matched duration ∧ 0 ≤ duration) :
    ∃ fin : Results,
      Run cfg env elapsed = .ok fin ∧
      fin.SuccessfulRequests = cfg.N + cfg.Threads ∧
      fin.FailedRequests = 0 ∧
      fin.FailedStatusCodes = [] ∧
      ∀ v ∈ fin.ResponseTimes, 0 ≤ v :=
  Run_all_success cfg env elapsed hN hcap hT hseq hR hP h200

/-- C10, instance: `N = 100`, `Threads = 1`, `RetryLimit = 3` gives
`SuccessfulRequests = 100 + 1`. -/
theorem Run_all_success_totals_witness :
    ∃ fin : Results,
      Run ⟨100, 1, 3, ""⟩ (fun _ _ => Attempt.response 200 true (1 / 10)) 12 = .ok fin ∧
      fin.SuccessfulRequests = 100 + 1 ∧
      fin.FailedRequests = 0 ∧
      fin.FailedStatusCodes = [] ∧
      ∀ v ∈ fin.ResponseTimes, 0 ≤ v :=
  Run_all_success_totals ⟨100, 1, 3, ""⟩ (fun _ _ => Attempt.response 200 true (1 / 10)) 12
    (by decide) (by decide) (by decide) (Or.inl rfl) (by decide) rfl
    (fun _ _ => ⟨true, 1 / 10, rfl, by norm_num⟩)

/-- C10 as stated fails: with `N = 100`, `Threads = 1`, `RetryLimit = 3`, no
pattern and every attempt answered with status 200, `Run` returns a record
whose `SuccessfulRequests` is 101, not 100. -/
theorem Run_all_success_counts_warmup :
    (∃ fin : Results,
      Run ⟨100, 1, 3, ""⟩ (fun _ _ => Attempt.response 200 true (1 / 10)) 12 = .ok fin ∧
      fin.SuccessfulRequests = 101) ∧
    ¬ ∃ fin : Results,
      Run ⟨100, 1, 3, ""⟩ (fun _ _ => Attempt.response 200 true (1 / 10)) 12 = .ok fin ∧
      fin.SuccessfulRequests = 100 := by
  obtain ⟨fin, hrun, hs, _⟩ :=
    Run_all_success ⟨100, 1, 3, ""⟩ (fun _ _ => Attempt.response 200 true (1 / 10)) 12
      (by decide) (by decide) (by decide) (Or.inl rfl) (by decide) rfl
      (fun _ _ => ⟨true, 1 / 10, rfl, by norm_num⟩)
  have hs101 : fin.SuccessfulRequests = 101 := by
    rw [hs]
    rfl
  refine ⟨⟨fin, hrun, hs101⟩, ?_⟩
  rintro ⟨fin2, hrun2, hs2⟩
  rw [hrun] at hrun2
  have : fin = fin2 := by
    injection hrun2
  subst this
  rw [hs101] at hs2
  exact absurd hs2 (by decide)

/-! ## Reporting -/

/-- With at least one entry in the slice and a percentile between 0 and 100 the
index is inside the slice. -/
theorem percentileIndex_in_range (len : Nat) (p : Int) (hlen : 0 < len)
    (hp0 : 0 ≤ p) (hp100 : p ≤ 100) :
    0 ≤ percentileIndex len p ∧ (percentileIndex len p).toNat < len := by
  unfold percentileIndex
  have hn : (0 : Int) ≤ (len : Int) - 1 := by omega
  have hprod : (0 : Int) ≤ ((len : Int) - 1) * p := Int.mul_nonneg hn hp0
  rw [Int.tdiv_eq_ediv hprod (by decide)]
  have hle : ((len : Int) - 1) * p ≤ ((len : Int) - 1) * 100 :=
    Int.mul_le_mul_of_nonneg_left hp100 hn
  constructor
  · omega
  · omega

/-- Reading the slice at an index that is inside it succeeds. -/
theorem indexFloat64s_ok (values : List ℚ) (index : Int)
    (h0 : 0 ≤ index) (hlt : index.toNat < values.length) :
    indexFloat64s values index = .ok (values.get ⟨index.toNat, hlt⟩) := by
  unfold indexFloat64s
  rw [if_neg (by omega), List.getElem?_eq_getElem hlt]
  rfl

/-- With at least one entry `>= 0` in the latency sequence all five reads of
`generatePercentileDistribution` are inside the filtered slice. -/
theorem generatePercentileDistribution_ok (results : Results)
    (h : validTimes results.ResponseTimes ≠ []) :
    ∃ data : List ℚ, generatePercentileDistribution results = .ok data ∧ data.length = 5 := by
  have hpos : 0 < (sortFloat64s (validTimes results.ResponseTimes)).length := by
    rw [length_sortFloat64s]
    exact List.length_pos.mpr h
  have key : ∀ p : Int, 0 ≤ p → p ≤ 100 → ∃ v,
      indexFloat64s (sortFloat64s (validTimes results.ResponseTimes))
        (percentileIndex (sortFloat64s (validTimes results.ResponseTimes)).length p) = .ok v := by
    intro p hp0 hp100
    obtain ⟨i0, i1⟩ := percentileIndex_in_range _ p hpos hp0 hp100
    exact ⟨_, indexFloat64s_ok _ _ i0 i1⟩
  obtain ⟨v50, h50⟩ := key 50 (by decide) (by decide)
  obtain ⟨v75, h75⟩ := key 75 (by decide) (by decide)
  obtain ⟨v90, h90⟩ := key 90 (by decide) (by decide)
  obtain ⟨v95, h95⟩ := key 95 (by decide) (by decide)
  obtain ⟨v99, h99⟩ := key 99 (by decide) (by decide)
  refine ⟨[v50, v75, v90, v95, v99], ?_, rfl⟩
  simp only [generatePercentileDistribution, List.mapM_cons, List.mapM_nil, h50, h75, h90, h95, h99]
  rfl

/-- C12 (reporting does not survive total failure on the code). A run whose
two requests are both answered with status 503 finalizes with
`ResponseTimes = [-1, -1]`; the filtered copy is empty, the index computed for
the 50th percentile is `int(-0.5) = 0`, and `generatePercentileDistribution`
reads `validTimes[0]` outside the empty slice. -/
theorem percentile_distribution_on_total_failure :
    ∃ fin : Results,
      Run ⟨1, 1, 3, ""⟩ (fun _ _ => Attempt.response 503 true 1) 0 = .ok fin ∧
      fin.ResponseTimes = [-1, -1] ∧
      sortFloat64s (validTimes fin.ResponseTimes) = [] ∧
      percentileIndex (sortFloat64s (validTimes fin.ResponseTimes)).length 50 = 0 ∧
      generatePercentileDistribution fin = .error RunError.indexOutOfRange := by
  refine ⟨_, rfl, ?_, ?_, ?_, rfl⟩ <;> decide

/-! ## The request counter -/

/-- One invocation keeps `TotalRequests` and `SuccessfulRequests` equal: they
are only ever incremented together. -/
theorem makeRequest_keeps_total_eq_successful (cfg : Config) (env : Nat → Attempt)
    (res : Results) (h : res.TotalRequests = res.SuccessfulRequests) :
    (makeRequest cfg env res).1.TotalRequests = (makeRequest cfg env res).1.SuccessfulRequests := by
  unfold makeRequest
  rcases attemptLoop_cases cfg env cfg.RetryLimit.toNat 0 res with
    hc | ⟨s, hc⟩ | ⟨j, s, b, d, _, hc⟩
  · rw [hc]; exact h
  · rw [hc]; exact h
  · rw [hc]
    simp only [recordSuccess]
    omega

/-- A series of invocations keeps `TotalRequests` and `SuccessfulRequests` equal. -/
theorem makeRequests_keeps_total_eq_successful (cfg : Config) (envs : List (Nat → Attempt)) :
    ∀ res : Results, res.TotalRequests = res.SuccessfulRequests →
      (makeRequests cfg envs res).TotalRequests = (makeRequests cfg envs res).SuccessfulRequests := by
  induction envs with
  | nil => intro res h; simpa [makeRequests] using h
  | cons env envs ih =>
    intro res h
    have := ih (makeRequest cfg env res).1 (makeRequest_keeps_total_eq_successful cfg env res h)
    simpa [makeRequests] using this

/-- C13 (implicit invariant). Starting from the initial record, after any
sequential series of `makeRequest` invocations with any attempt outcomes,
`TotalRequests = SuccessfulRequests`; consequently, whenever `TotalRequests > 0`,
the success rate `SuccessfulRequests / TotalRequests * 100` of `DisplayResults`
is exactly 100, whatever the number of failed requests. -/
theorem total_equals_successful (cfg : Config) (envs : List (Nat → Attempt)) :
    (makeRequests cfg envs initResults).TotalRequests
      = (makeRequests cfg envs initResults).SuccessfulRequests ∧
    (0 < (makeRequests cfg envs initResults).TotalRequests →
      successRate (makeRequests cfg envs initResults) = 100) := by
  have heq := makeRequests_keeps_total_eq_successful cfg envs initResults rfl
  refine ⟨heq, fun hpos => ?_⟩
  unfold successRate
  rw [← heq]
  have hne : ((makeRequests cfg envs initResults).TotalRequests : ℚ) ≠ 0 := by
    exact_mod_cast (ne_of_gt hpos)
  rw [div_self hne, one_mul]

/-- C13, instance: one success, one status 500 and one exhausted request give
`TotalRequests = SuccessfulRequests = 1`, two sentinel entries, and a success
rate of 100. -/
theorem total_equals_successful_witness :
    (makeRequests ⟨3, 1, 1, ""⟩
      [fun _ => Attempt.response 200 true 2, fun _ => Attempt.response 500 true 3,
       fun _ => Attempt.transportError] initResults).TotalRequests = 1 ∧
    sentinelCount (makeRequests ⟨3, 1, 1, ""⟩
      [fun _ => Attempt.response 200 true 2, fun _ => Attempt.response 500 true 3,
       fun _ => Attempt.transportError] initResults).ResponseTimes = 2 ∧
    successRate (makeRequests ⟨3, 1, 1, ""⟩
      [fun _ => Attempt.response 200 true 2, fun _ => Attempt.response 500 true 3,
       fun _ => Attempt.transportError] initResults) = 100 :=
  ⟨by decide, by decide,
   (total_equals_successful ⟨3, 1, 1, ""⟩
      [fun _ => Attempt.response 200 true 2, fun _ => Attempt.response 500 true 3,
       fun _ => Attempt.transportError]).2 (by decide)⟩

end Stormforce
